import Mathlib

/-!
Shallow embedding of the zenvocab session queue engines
(src/zenvocab/components/StudyMode.tsx and DictationMode.tsx, data model in
src/zenvocab/types.ts).  React state updates are modelled by explicit state
passing: every event handler becomes a function from engine state to engine
state, paired with the summary it emits through `onComplete` when it
finalizes.  The nondeterministic inputs of the code — the
`crypto.randomUUID()` instance ids, the current date string, the random
shuffle of the dictation candidates — are taken as explicit parameters.
-/

/-- `Word` from types.ts. -/
structure Word where
  id : String
  text : String
  phonetic : String
  definition : String
deriving DecidableEq, Repr

/-- The `type` field of `ErrorRecord`: the literal union `'learning' | 'dictation'`. -/
inductive ErrorKind where
  | learning
  | dictation
deriving DecidableEq, Repr

/-- `ErrorRecord` from types.ts. -/
structure ErrorRecord where
  wordId : String
  wordText : String
  wordDefinition : String
  wordPhonetic : String
  date : String
  type : ErrorKind
deriving DecidableEq, Repr

namespace StudyMode

/-- `QueueItem` from StudyMode.tsx: a word plus a unique instance id. -/
structure QueueItem where
  word : Word
  id : String
deriving DecidableEq, Repr

/-- The self-graded response type: `'known' | 'vague' | 'unknown'`. -/
inductive Response where
  | known
  | vague
  | unknown
deriving DecidableEq, Repr

/-- The React state of the study engine: `queue`, `currentIndex`,
`sessionErrors`, `learnedIds`.  The JS `Set<string>` is modelled as an
insertion-ordered duplicate-free list, matching `Set` iteration order as
observed by `Array.from`. -/
structure StudyState where
  queue : List QueueItem
  currentIndex : Nat
  sessionErrors : List ErrorRecord
  learnedIds : List String
deriving DecidableEq, Repr

/-- The summary passed to `onComplete` by StudyMode. -/
structure StudyResult where
  reviewedCount : Nat
  errors : List ErrorRecord
  learnedIds : List String
deriving DecidableEq, Repr

/-- JS `new Set(prev).add(x)`: idempotent insert, new elements go to the tail. -/
def setAdd (s : List String) (x : String) : List String :=
  if x ∈ s then s else s ++ [x]

/-- JS `set.delete(x)` on the copied set. -/
def setDelete (s : List String) (x : String) : List String :=
  s.filter (fun y => y ≠ x)

/-- `recordError` from StudyMode.tsx: append a `learning` error record unless
one with the same `wordId` is already present. -/
def recordError (errors : List ErrorRecord) (w : Word) (date : String) : List ErrorRecord :=
  if errors.any (fun e => e.wordId = w.id) then errors
  else errors ++ [{ wordId := w.id, wordText := w.text, wordDefinition := w.definition,
                    wordPhonetic := w.phonetic, date := date, type := ErrorKind.learning }]

/-- The entries `handleResponse` pushes onto the queue tail: none for
`known`, one for `vague`, three for `unknown`; `u1 u2 u3` stand for the
`crypto.randomUUID()` instance ids. -/
def requeueItems (w : Word) (u1 u2 u3 : String) : Response → List QueueItem
  | Response.known => []
  | Response.vague => [{ word := w, id := u1 }]
  | Response.unknown => [{ word := w, id := u1 }, { word := w, id := u2 }, { word := w, id := u3 }]

/-- Exposure multiplier of a response: 0, 1, or 3 requeued entries. -/
def requeueCount : Response → Nat
  | Response.known => 0
  | Response.vague => 1
  | Response.unknown => 3

/-- The `setLearnedIds` update dispatched by `handleResponse`, which is also
the `finalLearned` recomputation inside its completion branch: `known` adds
the word id, `vague`/`unknown` delete it. -/
def updateLearned (learned : List String) (ty : Response) (wid : String) : List String :=
  match ty with
  | Response.known => setAdd learned wid
  | Response.vague => setDelete learned wid
  | Response.unknown => setDelete learned wid

/-- The error-accumulator update performed by `handleResponse`:
`vague`/`unknown` call `recordError`, `known` leaves it alone. -/
def updateErrors (errors : List ErrorRecord) (ty : Response) (w : Word) (date : String) :
    List ErrorRecord :=
  match ty with
  | Response.known => errors
  | Response.vague => recordError errors w date
  | Response.unknown => recordError errors w date

/-- `handleResponse` from StudyMode.tsx.  When `queue[currentIndex]` is
missing the handler returns at once: state unchanged, nothing emitted.
Otherwise it builds `nextQueue`, dispatches the learned-set and error
updates, and either finalizes (when `nextIndex >= nextQueue.length`) —
emitting a summary whose `errors` field is the `sessionErrors` closure value
captured before this call's `recordError`, and whose `learnedIds` is the
manually recomputed `finalLearned` — or stores `nextQueue` and `nextIndex`
and waits for the next call.  In the finalize branch the code never calls
`setQueue` or `setCurrentIndex`, so those fields keep their old values. -/
def handleResponse (s : StudyState) (ty : Response) (u1 u2 u3 date : String) :
    StudyState × Option StudyResult :=
  match s.queue[s.currentIndex]? with
  | Option.none => (s, Option.none)
  | Option.some currentItem =>
    let currentWord := currentItem.word
    let nextQueue := s.queue ++ requeueItems currentWord u1 u2 u3 ty
    let newErrors := updateErrors s.sessionErrors ty currentWord date
    let newLearned := updateLearned s.learnedIds ty currentWord.id
    let nextIndex := s.currentIndex + 1
    if nextQueue.length ≤ nextIndex then
      ({ s with sessionErrors := newErrors, learnedIds := newLearned },
       Option.some { reviewedCount := (nextQueue.map (fun i => i.word.id)).dedup.length,
                     errors := s.sessionErrors,
                     learnedIds := updateLearned s.learnedIds ty currentWord.id })
    else
      ({ queue := nextQueue, currentIndex := nextIndex,
         sessionErrors := newErrors, learnedIds := newLearned }, Option.none)

/-- Queue initialization from StudyMode.tsx: the first `targetCount` words,
one entry each, cursor 0, empty learned set and error log.  Instance ids are
modelled as the entry's position rendered as a string (the code draws
`crypto.randomUUID()`). -/
def initStudy (words : List Word) (targetCount : Nat) : StudyState :=
  { queue := (words.take targetCount).enum.map (fun p => { word := p.2, id := toString p.1 }),
    currentIndex := 0, sessionErrors := [], learnedIds := [] }

/-- Drive a study session: feed the responses one at a time through
`handleResponse`, threading the state.  Alongside the summary, the driver
records the observation trace — for each advance that found an entry at the
cursor, the pair of that entry's word id and the response — and accumulates
`ever`, the ids of every entry that ever occupied a queue slot: the caller
seeds it with the ids of the initial queue and each step appends the ids of
the entries that step appended to the queue.  Fresh instance ids are drawn
from the counter `ctr`. -/
def runStudy : List Response → StudyState → List String → Nat → String →
    Option (StudyResult × (List (String × Response) × List String))
  | [], _, _, _, _ => Option.none
  | r :: rs, s, ever, ctr, date =>
    match s.queue[s.currentIndex]? with
    | Option.none => runStudy rs s ever ctr date
    | Option.some item =>
      match handleResponse s r (toString ctr) (toString (ctr + 1)) (toString (ctr + 2)) date with
      | (s2, Option.some res) =>
        Option.some (res, ([(item.word.id, r)],
          ever ++ (s2.queue.drop s.queue.length).map (fun i => i.word.id)))
      | (s2, Option.none) =>
        (runStudy rs s2 (ever ++ (s2.queue.drop s.queue.length).map (fun i => i.word.id))
            (ctr + 3) date).map
          (fun q => (q.1, ((item.word.id, r) :: q.2.1, q.2.2)))

/-- The last response recorded for a given word id in an observation trace
(`Option.none` when the word was never advanced). -/
def lastResp : List (String × Response) → String → Option Response
  | [], _ => Option.none
  | p :: tr, wid =>
    match lastResp tr wid with
    | Option.some r => Option.some r
    | Option.none => if p.1 = wid then Option.some p.2 else Option.none

end StudyMode

namespace DictationMode

/-- The grading feedback state: `'none' | 'correct' | 'incorrect'`. -/
inductive Feedback where
  | none
  | correct
  | incorrect
deriving DecidableEq, Repr

/-- The React state of the dictation engine: the fixed `queue`,
`currentIndex`, the typed `input`, the per-entry `feedback`, `sessionErrors`
and `learnedIds` (a plain array in this engine, not a set). -/
structure DictState where
  queue : List Word
  currentIndex : Nat
  input : String
  feedback : Feedback
  sessionErrors : List ErrorRecord
  learnedIds : List String
deriving DecidableEq, Repr

/-- The summary passed to `onComplete` by DictationMode. -/
structure DictResult where
  totalCount : Nat
  errors : List ErrorRecord
  learnedIds : List String
deriving DecidableEq, Repr

/-- Queue initialization from DictationMode.tsx: the shuffled candidate list
(the random shuffle outcome is a parameter) truncated to `targetCount`. -/
def initDict (shuffled : List Word) (targetCount : Nat) : DictState :=
  { queue := shuffled.take targetCount, currentIndex := 0, input := "",
    feedback := Feedback.none, sessionErrors := [], learnedIds := [] }

/-- Drop the leading whitespace characters of a character list (one side of
JS `trim()`). -/
def dropLeadingWhite : List Char → List Char
  | [] => []
  | c :: cs => if c.isWhitespace then dropLeadingWhite cs else c :: cs

/-- JS `trim()` modelled on the character list of a string: drop leading
whitespace, then drop trailing whitespace by reversing. -/
def jsTrim (cs : List Char) : List Char :=
  (dropLeadingWhite ((dropLeadingWhite cs).reverse)).reverse

/-- JS `toLowerCase()` modelled on the character list of a string. -/
def jsToLower (cs : List Char) : List Char :=
  cs.map Char.toLower

/-- The grading test of `handleSubmit`:
`input.trim().toLowerCase() === currentWord.text.toLowerCase()`. -/
def gradeCorrect (input : String) (target : String) : Bool :=
  jsToLower (jsTrim input.data) == jsToLower target.data

/-- `handleSubmit` from DictationMode.tsx: return unchanged without a current
word or when feedback is already shown; otherwise grade the input, and either
mark correct and append the word id to `learnedIds`, or mark incorrect and
append a `dictation` error record — with no duplicate-wordId check. -/
def handleSubmit (s : DictState) (date : String) : DictState :=
  match s.queue[s.currentIndex]? with
  | Option.none => s
  | Option.some currentWord =>
    if s.feedback ≠ Feedback.none then s
    else if gradeCorrect s.input currentWord.text then
      { s with feedback := Feedback.correct, learnedIds := s.learnedIds ++ [currentWord.id] }
    else
      { s with
        feedback := Feedback.incorrect,
        sessionErrors := s.sessionErrors ++
          [{ wordId := currentWord.id, wordText := currentWord.text,
             wordDefinition := currentWord.definition, wordPhonetic := currentWord.phonetic,
             date := date, type := ErrorKind.dictation }] }

/-- `nextWord` from DictationMode.tsx: clear feedback and input, then either
finalize (when `currentIndex + 1 >= queue.length`) — emitting the current
`queue.length`, `sessionErrors` and `learnedIds` — or move the cursor
forward.  There is no grading-state guard: the handler runs the same way
whatever `feedback` holds. -/
def nextWord (s : DictState) : DictState × Option DictResult :=
  if s.queue.length ≤ s.currentIndex + 1 then
    ({ s with feedback := Feedback.none, input := "" },
     Option.some { totalCount := s.queue.length, errors := s.sessionErrors,
                   learnedIds := s.learnedIds })
  else
    ({ s with
       feedback := Feedback.none,
       input := "",
       currentIndex := s.currentIndex + 1 }, Option.none)

end DictationMode


/-- Sample word used by the concrete witnesses below. -/
def wordA : Word := { id := "a", text := "alpha", phonetic := "AL", definition := "first" }

/-- Sample word used by the concrete witnesses below. -/
def wordCat : Word := { id := "c", text := "cat", phonetic := "KAT", definition := "feline" }

/-- Sample word used by the concrete witnesses below. -/
def wordApple : Word := { id := "ap", text := "apple", phonetic := "APL", definition := "fruit" }

/-- Sample pre-recorded learning error for `wordA`. -/
def errorA : ErrorRecord :=
  { wordId := "a", wordText := "alpha", wordDefinition := "first", wordPhonetic := "AL",
    date := "d0", type := ErrorKind.learning }

/-- A study state holding a single queue entry for `wordA` at the cursor. -/
def sampleStudyState : StudyMode.StudyState :=
  { queue := [{ word := wordA, id := "i0" }], currentIndex := 0,
    sessionErrors := [], learnedIds := [] }

/-- A study state like `sampleStudyState` but with an error for `wordA`
already recorded earlier in the session. -/
def sampleStudyStateErr : StudyMode.StudyState :=
  { queue := [{ word := wordA, id := "i0" }], currentIndex := 0,
    sessionErrors := [errorA], learnedIds := [] }

/-- The empty study state: no queue, cursor 0. -/
def emptyStudyState : StudyMode.StudyState :=
  { queue := [], currentIndex := 0, sessionErrors := [], learnedIds := [] }

/-- A dictation session over the candidate list `[cat, cat]` — the same word
id occupies two queue entries — in which both entries are answered "dog"
(incorrect) and advanced. -/
def dictDupRun : DictationMode.DictState × Option DictationMode.DictResult :=
  DictationMode.nextWord (DictationMode.handleSubmit
    { (DictationMode.nextWord (DictationMode.handleSubmit
        { DictationMode.initDict [wordCat, wordCat] 2 with input := "dog" } "d")).1
      with input := "dog" } "d")

namespace StudyMode

theorem mem_setAdd (l : List String) (x wid : String) :
    wid ∈ setAdd l x ↔ wid ∈ l ∨ wid = x := by
  unfold setAdd
  split
  · rename_i hx
    constructor
    · exact fun h => Or.inl h
    · rintro (h | rfl)
      · exact h
      · exact hx
  · simp [List.mem_append]

theorem mem_setDelete (l : List String) (x wid : String) :
    wid ∈ setDelete l x ↔ wid ∈ l ∧ wid ≠ x := by
  unfold setDelete
  simp [List.mem_filter]

theorem mem_updateLearned_self (l : List String) (ty : Response) (w : String) :
    w ∈ updateLearned l ty w ↔ ty = Response.known := by
  cases ty with
  | known => simp [updateLearned, mem_setAdd]
  | vague => simp [updateLearned, mem_setDelete]
  | unknown => simp [updateLearned, mem_setDelete]

theorem mem_updateLearned_other (l : List String) (ty : Response) (w wid : String)
    (h : wid ≠ w) : wid ∈ updateLearned l ty w ↔ wid ∈ l := by
  cases ty with
  | known => simp [updateLearned, mem_setAdd, h]
  | vague => simp [updateLearned, mem_setDelete, h]
  | unknown => simp [updateLearned, mem_setDelete, h]

theorem length_requeueItems (w : Word) (u1 u2 u3 : String) (ty : Response) :
    (requeueItems w u1 u2 u3 ty).length = requeueCount ty := by
  cases ty <;> rfl

theorem word_mem_requeueItems (w : Word) (u1 u2 u3 : String) (ty : Response) :
    ∀ q ∈ requeueItems w u1 u2 u3 ty, q.word = w := by
  cases ty with
  | known => intro q hq; simp [requeueItems] at hq
  | vague => intro q hq; simp [requeueItems] at hq; subst hq; rfl
  | unknown =>
    intro q hq
    simp [requeueItems] at hq
    rcases hq with rfl | rfl | rfl <;> rfl

theorem handleResponse_nil (s : StudyState) (ty : Response) (u1 u2 u3 date : String)
    (h : s.queue[s.currentIndex]? = Option.none) :
    handleResponse s ty u1 u2 u3 date = (s, Option.none) := by
  simp [handleResponse, h]

theorem handleResponse_queue (s : StudyState) (ty : Response) (u1 u2 u3 date : String)
    (item : QueueItem) (h : s.queue[s.currentIndex]? = Option.some item) :
    (handleResponse s ty u1 u2 u3 date).1.queue
      = s.queue ++ requeueItems item.word u1 u2 u3 ty := by
  have hlt : s.currentIndex < s.queue.length := (List.getElem?_eq_some.mp h).1
  simp only [handleResponse, h]
  split
  · rename_i hle
    rw [List.length_append, length_requeueItems] at hle
    have hk : requeueCount ty = 0 := by omega
    cases ty with
    | known => simp [requeueItems]
    | vague => simp [requeueCount] at hk
    | unknown => simp [requeueCount] at hk
  · rfl

theorem handleResponse_learnedIds (s : StudyState) (ty : Response) (u1 u2 u3 date : String)
    (item : QueueItem) (h : s.queue[s.currentIndex]? = Option.some item) :
    (handleResponse s ty u1 u2 u3 date).1.learnedIds
      = updateLearned s.learnedIds ty item.word.id := by
  simp only [handleResponse, h]
  split <;> rfl

theorem handleResponse_sessionErrors (s : StudyState) (ty : Response) (u1 u2 u3 date : String)
    (item : QueueItem) (h : s.queue[s.currentIndex]? = Option.some item) :
    (handleResponse s ty u1 u2 u3 date).1.sessionErrors
      = updateErrors s.sessionErrors ty item.word date := by
  simp only [handleResponse, h]
  split <;> rfl

end StudyMode

namespace StudyMode

theorem handleResponse_summary (s : StudyState) (ty : Response) (u1 u2 u3 date : String)
    (item : QueueItem) (res : StudyResult) (h : s.queue[s.currentIndex]? = Option.some item)
    (hres : (handleResponse s ty u1 u2 u3 date).2 = Option.some res) :
    ty = Response.known ∧ s.currentIndex + 1 = s.queue.length ∧
      res = { reviewedCount := (s.queue.map (fun i => i.word.id)).dedup.length,
              errors := s.sessionErrors,
              learnedIds := setAdd s.learnedIds item.word.id } := by
  have hlt : s.currentIndex < s.queue.length := (List.getElem?_eq_some.mp h).1
  simp only [handleResponse, h] at hres
  split at hres
  · rename_i hle
    rw [List.length_append, length_requeueItems] at hle
    cases ty with
    | known =>
      refine ⟨rfl, ?_, ?_⟩
      · simp [requeueCount] at hle
        omega
      · simp only [Option.some.injEq] at hres
        rw [← hres]
        simp [requeueItems, updateLearned]
    | vague =>
      simp [requeueCount] at hle
      omega
    | unknown =>
      simp [requeueCount] at hle
      omega
  · simp at hres

theorem handleResponse_snd_none (s : StudyState) (ty : Response) (u1 u2 u3 date : String)
    (item : QueueItem) (h : s.queue[s.currentIndex]? = Option.some item)
    (hty : ty ≠ Response.known) :
    (handleResponse s ty u1 u2 u3 date).2 = Option.none := by
  have hlt : s.currentIndex < s.queue.length := (List.getElem?_eq_some.mp h).1
  simp only [handleResponse, h]
  split
  · rename_i hle
    rw [List.length_append, length_requeueItems] at hle
    cases ty with
    | known => exact absurd rfl hty
    | vague =>
      simp [requeueCount] at hle
      omega
    | unknown =>
      simp [requeueCount] at hle
      omega
  · rfl

theorem nodup_recordError (errors : List ErrorRecord) (w : Word) (date : String)
    (h : (errors.map (fun e => e.wordId)).Nodup) :
    ((recordError errors w date).map (fun e => e.wordId)).Nodup := by
  unfold recordError
  split
  · exact h
  · rename_i hany
    simp only [List.any_eq_true, decide_eq_true_eq, not_exists, not_and] at hany
    rw [List.map_append]
    simp only [List.nodup_append]
    refine ⟨h, by simp, ?_⟩
    intro x hx hx2
    simp only [List.map_cons, List.map_nil, List.mem_singleton] at hx2
    subst hx2
    simp only [List.mem_map] at hx
    obtain ⟨e, he, heid⟩ := hx
    exact hany e he heid

theorem nodup_updateErrors (errors : List ErrorRecord) (ty : Response) (w : Word) (date : String)
    (h : (errors.map (fun e => e.wordId)).Nodup) :
    ((updateErrors errors ty w date).map (fun e => e.wordId)).Nodup := by
  cases ty with
  | known => exact h
  | vague => exact nodup_recordError _ _ _ h
  | unknown => exact nodup_recordError _ _ _ h

end StudyMode

namespace StudyMode

theorem runStudy_errors_nodup (rs : List Response) :
    ∀ (s : StudyState) (ever : List String) (ctr : Nat) (date : String)
      (res : StudyResult) (tr : List (String × Response)) (ev : List String),
    runStudy rs s ever ctr date = Option.some (res, (tr, ev)) →
    (s.sessionErrors.map (fun e => e.wordId)).Nodup →
    (res.errors.map (fun e => e.wordId)).Nodup := by
  induction rs with
  | nil =>
    intro s ever ctr date res tr ev h hnd
    simp [runStudy] at h
  | cons r rs ih =>
    intro s ever ctr date res tr ev h hnd
    cases hq : s.queue[s.currentIndex]? with
    | none =>
      rw [runStudy] at h
      simp only [hq] at h
      exact ih s ever ctr date res tr ev h hnd
    | some item =>
      rw [runStudy] at h
      simp only [hq] at h
      rcases hh : handleResponse s r (toString ctr) (toString (ctr + 1)) (toString (ctr + 2)) date
        with ⟨s2, out⟩
      cases out with
      | some res2 =>
        simp only [hh, Option.some.injEq, Prod.mk.injEq] at h
        obtain ⟨h1, h2, h3⟩ := h
        subst h1
        obtain ⟨hty, hidx, hresEq⟩ :=
          handleResponse_summary s r (toString ctr) (toString (ctr + 1)) (toString (ctr + 2))
            date item res2 hq (by rw [hh])
        rw [hresEq]
        exact hnd
      | none =>
        simp only [hh] at h
        rcases hrec : runStudy rs s2
            (ever ++ (s2.queue.drop s.queue.length).map (fun i => i.word.id)) (ctr + 3) date
          with _ | ⟨res2, tr2, ev2⟩
        · rw [hrec] at h
          simp at h
        · rw [hrec] at h
          simp only [Option.map_some', Option.some.injEq, Prod.mk.injEq] at h
          obtain ⟨h1, h2, h3⟩ := h
          subst h1
          apply ih _ _ _ _ _ _ _ hrec
          have hse : s2.sessionErrors = updateErrors s.sessionErrors r item.word date := by
            have hx := handleResponse_sessionErrors s r (toString ctr) (toString (ctr + 1))
              (toString (ctr + 2)) date item hq
            rw [hh] at hx
            exact hx
          rw [hse]
          exact nodup_updateErrors _ _ _ _ hnd

end StudyMode

namespace StudyMode

theorem runStudy_learned (rs : List Response) :
    ∀ (s : StudyState) (ever : List String) (ctr : Nat) (date : String)
      (res : StudyResult) (tr : List (String × Response)) (ev : List String),
    runStudy rs s ever ctr date = Option.some (res, (tr, ev)) →
    ∀ wid : String,
      (wid ∈ res.learnedIds ↔
        (lastResp tr wid = Option.some Response.known ∨
          (lastResp tr wid = Option.none ∧ wid ∈ s.learnedIds))) := by
  induction rs with
  | nil =>
    intro s ever ctr date res tr ev h wid
    simp [runStudy] at h
  | cons r rs ih =>
    intro s ever ctr date res tr ev h wid
    cases hq : s.queue[s.currentIndex]? with
    | none =>
      rw [runStudy] at h
      simp only [hq] at h
      exact ih s ever ctr date res tr ev h wid
    | some item =>
      rw [runStudy] at h
      simp only [hq] at h
      rcases hh : handleResponse s r (toString ctr) (toString (ctr + 1)) (toString (ctr + 2)) date
        with ⟨s2, out⟩
      cases out with
      | some res2 =>
        simp only [hh, Option.some.injEq, Prod.mk.injEq] at h
        obtain ⟨h1, h2, h3⟩ := h
        subst h1
        subst h2
        obtain ⟨hty, hidx, hresEq⟩ :=
          handleResponse_summary s r (toString ctr) (toString (ctr + 1)) (toString (ctr + 2))
            date item res2 hq (by rw [hh])
        subst hty
        rw [hresEq]
        by_cases hw : item.word.id = wid
        · subst hw
          simp [lastResp, mem_setAdd]
        · simp only [lastResp]
          simp only [hw, if_false]
          have hw2 : ¬(wid = item.word.id) := fun hx => hw hx.symm
          simp [mem_setAdd, hw2]
      | none =>
        simp only [hh] at h
        rcases hrec : runStudy rs s2
            (ever ++ (s2.queue.drop s.queue.length).map (fun i => i.word.id)) (ctr + 3) date
          with _ | ⟨res2, tr2, ev2⟩
        · rw [hrec] at h
          simp at h
        · rw [hrec] at h
          simp only [Option.map_some', Option.some.injEq, Prod.mk.injEq] at h
          obtain ⟨h1, h2, h3⟩ := h
          subst h1
          subst h2
          have hL : s2.learnedIds = updateLearned s.learnedIds r item.word.id := by
            have hx := handleResponse_learnedIds s r (toString ctr) (toString (ctr + 1))
              (toString (ctr + 2)) date item hq
            rw [hh] at hx
            exact hx
          have ihh := ih s2 _ _ date res2 tr2 ev2 hrec wid
          rw [hL] at ihh
          simp only [lastResp]
          cases hlr : lastResp tr2 wid with
          | some r2 =>
            rw [hlr] at ihh
            simp only [hlr]
            simp only [Option.some.injEq] at ihh ⊢
            simp only [reduceCtorEq, false_and, or_false] at ihh ⊢
            exact ihh
          | none =>
            rw [hlr] at ihh
            simp only [reduceCtorEq, false_or, true_and] at ihh
            simp only [hlr]
            by_cases hw : item.word.id = wid
            · subst hw
              simp only [if_pos rfl]
              rw [ihh, mem_updateLearned_self]
              simp
            · have hw2 : ¬(wid = item.word.id) := fun hx => hw hx.symm
              rw [ihh, mem_updateLearned_other _ _ _ _ hw2]
              simp [hw]

end StudyMode

namespace StudyMode

theorem runStudy_reviewed (rs : List Response) :
    ∀ (s : StudyState) (ctr : Nat) (date : String)
      (res : StudyResult) (tr : List (String × Response)) (ev : List String),
    runStudy rs s (s.queue.map (fun i => i.word.id)) ctr date = Option.some (res, (tr, ev)) →
    res.reviewedCount = ev.dedup.length := by
  induction rs with
  | nil =>
    intro s ctr date res tr ev h
    simp [runStudy] at h
  | cons r rs ih =>
    intro s ctr date res tr ev h
    cases hq : s.queue[s.currentIndex]? with
    | none =>
      rw [runStudy] at h
      simp only [hq] at h
      exact ih s ctr date res tr ev h
    | some item =>
      rw [runStudy] at h
      simp only [hq] at h
      rcases hh : handleResponse s r (toString ctr) (toString (ctr + 1)) (toString (ctr + 2)) date
        with ⟨s2, out⟩
      have hqueue : s2.queue = s.queue ++ requeueItems item.word (toString ctr)
          (toString (ctr + 1)) (toString (ctr + 2)) r := by
        have hx := handleResponse_queue s r (toString ctr) (toString (ctr + 1))
          (toString (ctr + 2)) date item hq
        rw [hh] at hx
        exact hx
      cases out with
      | some res2 =>
        simp only [hh, Option.some.injEq, Prod.mk.injEq] at h
        obtain ⟨h1, h2, h3⟩ := h
        subst h1
        obtain ⟨hty, hidx, hresEq⟩ :=
          handleResponse_summary s r (toString ctr) (toString (ctr + 1)) (toString (ctr + 2))
            date item res2 hq (by rw [hh])
        subst hty
        simp only [requeueItems, List.append_nil] at hqueue
        rw [hqueue, List.drop_length] at h3
        simp only [List.map_nil, List.append_nil] at h3
        rw [hresEq, ← h3]
      | none =>
        simp only [hh] at h
        rcases hrec : runStudy rs s2
            ((s.queue.map (fun i => i.word.id)) ++
              (s2.queue.drop s.queue.length).map (fun i => i.word.id)) (ctr + 3) date
          with _ | ⟨res2, tr2, ev2⟩
        · rw [hrec] at h
          simp at h
        · rw [hrec] at h
          simp only [Option.map_some', Option.some.injEq, Prod.mk.injEq] at h
          obtain ⟨h1, h2, h3⟩ := h
          subst h1
          subst h3
          have hever : (s.queue.map (fun i => i.word.id)) ++
              (s2.queue.drop s.queue.length).map (fun i => i.word.id)
                = s2.queue.map (fun i => i.word.id) := by
            rw [hqueue, List.drop_left, ← List.map_append]
          rw [hever] at hrec
          exact ih s2 (ctr + 3) date res2 tr2 ev2 hrec

end StudyMode

/-- C1: for every advance on the entry at the cursor, the resulting queue is
the old queue with the requeue entries appended at the tail — none for
`known`, exactly one for `vague`, exactly three for `unknown` — all carrying
the same word as the answered entry; no existing entry is removed or
modified (the old queue is a prefix of the new one). -/
theorem study_requeue_policy (s : StudyMode.StudyState) (ty : StudyMode.Response)
    (u1 u2 u3 date : String) (item : StudyMode.QueueItem)
    (h : s.queue[s.currentIndex]? = Option.some item) :
    (StudyMode.handleResponse s ty u1 u2 u3 date).1.queue
        = s.queue ++ StudyMode.requeueItems item.word u1 u2 u3 ty ∧
      (StudyMode.requeueItems item.word u1 u2 u3 ty).length = StudyMode.requeueCount ty ∧
      (∀ q ∈ StudyMode.requeueItems item.word u1 u2 u3 ty, q.word = item.word) :=
  ⟨StudyMode.handleResponse_queue s ty u1 u2 u3 date item h,
   StudyMode.length_requeueItems item.word u1 u2 u3 ty,
   StudyMode.word_mem_requeueItems item.word u1 u2 u3 ty⟩

/-- Witness for C1 at a concrete input: a `vague` advance on the single-entry
queue appends exactly one entry for the same word. -/
theorem study_requeue_policy_witness :
    (StudyMode.handleResponse sampleStudyState StudyMode.Response.vague "u1" "u2" "u3" "d").1.queue
        = sampleStudyState.queue
            ++ StudyMode.requeueItems wordA "u1" "u2" "u3" StudyMode.Response.vague ∧
      (StudyMode.requeueItems wordA "u1" "u2" "u3" StudyMode.Response.vague).length
        = StudyMode.requeueCount StudyMode.Response.vague ∧
      (∀ q ∈ StudyMode.requeueItems wordA "u1" "u2" "u3" StudyMode.Response.vague,
        q.word = wordA) :=
  study_requeue_policy sampleStudyState StudyMode.Response.vague "u1" "u2" "u3" "d"
    { word := wordA, id := "i0" } (by decide)

/-- C8: a `known` advance leaves the error accumulator and the queue contents
unchanged while putting the answered word's id into the learned set; when the
call finalizes, the emitted summary likewise carries the untouched error list
together with the id — an earlier-recorded error for the word survives a
later `known`. -/
theorem study_known_preserves_errors_and_queue (s : StudyMode.StudyState)
    (u1 u2 u3 date : String) (item : StudyMode.QueueItem)
    (h : s.queue[s.currentIndex]? = Option.some item) :
    (StudyMode.handleResponse s StudyMode.Response.known u1 u2 u3 date).1.sessionErrors
        = s.sessionErrors ∧
      (StudyMode.handleResponse s StudyMode.Response.known u1 u2 u3 date).1.queue = s.queue ∧
      item.word.id
        ∈ (StudyMode.handleResponse s StudyMode.Response.known u1 u2 u3 date).1.learnedIds ∧
      (∀ res, (StudyMode.handleResponse s StudyMode.Response.known u1 u2 u3 date).2
          = Option.some res →
        res.errors = s.sessionErrors ∧ item.word.id ∈ res.learnedIds) := by
  have hq := StudyMode.handleResponse_queue s StudyMode.Response.known u1 u2 u3 date item h
  have hl := StudyMode.handleResponse_learnedIds s StudyMode.Response.known u1 u2 u3 date item h
  have he := StudyMode.handleResponse_sessionErrors s StudyMode.Response.known u1 u2 u3 date item h
  refine ⟨?_, ?_, ?_, ?_⟩
  · rw [he]
    rfl
  · rw [hq]
    simp [StudyMode.requeueItems]
  · rw [hl, StudyMode.mem_updateLearned_self]
  · intro res hres
    obtain ⟨-, -, hresEq⟩ :=
      StudyMode.handleResponse_summary s StudyMode.Response.known u1 u2 u3 date item res h hres
    rw [hresEq]
    exact ⟨rfl, (StudyMode.mem_setAdd _ _ _).mpr (Or.inr rfl)⟩

/-- Witness for C8 at a concrete input: `known` on a queue entry for a word
whose error was recorded earlier leaves that error in place and marks the
word learned. -/
theorem study_known_preserves_errors_and_queue_witness :
    (StudyMode.handleResponse sampleStudyStateErr
          StudyMode.Response.known "u1" "u2" "u3" "d").1.sessionErrors
        = sampleStudyStateErr.sessionErrors ∧
      (StudyMode.handleResponse sampleStudyStateErr
          StudyMode.Response.known "u1" "u2" "u3" "d").1.queue = sampleStudyStateErr.queue ∧
      "a" ∈ (StudyMode.handleResponse sampleStudyStateErr
          StudyMode.Response.known "u1" "u2" "u3" "d").1.learnedIds ∧
      (∀ res, (StudyMode.handleResponse sampleStudyStateErr
            StudyMode.Response.known "u1" "u2" "u3" "d").2 = Option.some res →
        res.errors = sampleStudyStateErr.sessionErrors ∧ "a" ∈ res.learnedIds) :=
  study_known_preserves_errors_and_queue sampleStudyStateErr "u1" "u2" "u3" "d"
    { word := wordA, id := "i0" } (by decide)

/-- C9 (counterexample): the claim says an advance on an empty queue or an
out-of-range cursor is reported to the caller as a disallowed-operation
signal; instead the handler silently ignores the call — on the empty queue
and on an out-of-range cursor it returns the state unchanged and emits
nothing, through the ordinary return path. -/
theorem study_advance_invalid_silent :
    StudyMode.handleResponse emptyStudyState StudyMode.Response.known "u1" "u2" "u3" "d"
        = (emptyStudyState, Option.none) ∧
      StudyMode.handleResponse { sampleStudyState with currentIndex := 3 }
          StudyMode.Response.unknown "u1" "u2" "u3" "d"
        = ({ sampleStudyState with currentIndex := 3 }, Option.none) :=
  ⟨rfl, rfl⟩

/-- C9 (amended): calling study advance when the queue is empty or the
cursor is out of range is a silent no-op: the handler returns at once with
the state unchanged and no summary and no error signal. -/
theorem study_advance_invalid_noop (s : StudyMode.StudyState) (ty : StudyMode.Response)
    (u1 u2 u3 date : String) (h : s.queue[s.currentIndex]? = Option.none) :
    StudyMode.handleResponse s ty u1 u2 u3 date = (s, Option.none) :=
  StudyMode.handleResponse_nil s ty u1 u2 u3 date h

/-- Witness for amended C9 at a concrete input: advance on the empty queue
returns the state unchanged. -/
theorem study_advance_invalid_noop_witness :
    StudyMode.handleResponse emptyStudyState StudyMode.Response.vague "a" "b" "c" "d"
      = (emptyStudyState, Option.none) :=
  study_advance_invalid_noop emptyStudyState StudyMode.Response.vague "a" "b" "c" "d" rfl

/-- C10: a study session never finalizes on a `vague`/`unknown` response —
with an entry at the cursor those responses emit no summary and leave the
advanced cursor strictly below the new queue length — and whenever a summary
is emitted the triggering response was `known` and the answered word's id is
in the summary's learned set. -/
theorem study_finalize_only_on_known (s : StudyMode.StudyState) (ty : StudyMode.Response)
    (u1 u2 u3 date : String) :
    (∀ item, s.queue[s.currentIndex]? = Option.some item → ty ≠ StudyMode.Response.known →
        (StudyMode.handleResponse s ty u1 u2 u3 date).2 = Option.none ∧
          s.currentIndex + 1 < (StudyMode.handleResponse s ty u1 u2 u3 date).1.queue.length) ∧
      (∀ res, (StudyMode.handleResponse s ty u1 u2 u3 date).2 = Option.some res →
        ty = StudyMode.Response.known ∧
          ∃ item, s.queue[s.currentIndex]? = Option.some item ∧
            item.word.id ∈ res.learnedIds) := by
  constructor
  · intro item h hty
    refine ⟨StudyMode.handleResponse_snd_none s ty u1 u2 u3 date item h hty, ?_⟩
    have hq := StudyMode.handleResponse_queue s ty u1 u2 u3 date item h
    have hlt : s.currentIndex < s.queue.length := (List.getElem?_eq_some.mp h).1
    rw [hq, List.length_append, StudyMode.length_requeueItems]
    have h1 : 1 ≤ StudyMode.requeueCount ty := by
      cases ty with
      | known => exact absurd rfl hty
      | vague => decide
      | unknown => decide
    omega
  · intro res hres
    cases hq : s.queue[s.currentIndex]? with
    | none =>
      rw [StudyMode.handleResponse_nil s ty u1 u2 u3 date hq] at hres
      simp at hres
    | some item =>
      obtain ⟨hty, -, hresEq⟩ :=
        StudyMode.handleResponse_summary s ty u1 u2 u3 date item res hq hres
      exact ⟨hty, item, rfl, by
        rw [hresEq]
        exact (StudyMode.mem_setAdd _ _ _).mpr (Or.inr rfl)⟩

/-- Witness for C10 at concrete inputs: `vague` on the single-entry queue
continues with the cursor below the grown queue, and the summary emitted by
`known` on that queue contains the word's id. -/
theorem study_finalize_only_on_known_witness :
    ((StudyMode.handleResponse sampleStudyState
          StudyMode.Response.vague "u1" "u2" "u3" "d").2 = Option.none ∧
        sampleStudyState.currentIndex + 1 <
          (StudyMode.handleResponse sampleStudyState
            StudyMode.Response.vague "u1" "u2" "u3" "d").1.queue.length) ∧
      (StudyMode.Response.known = StudyMode.Response.known ∧
        ∃ item, sampleStudyState.queue[sampleStudyState.currentIndex]? = Option.some item ∧
          item.word.id ∈ ({ reviewedCount := 1, errors := [], learnedIds := ["a"] }
            : StudyMode.StudyResult).learnedIds) :=
  ⟨(study_finalize_only_on_known sampleStudyState
        StudyMode.Response.vague "u1" "u2" "u3" "d").1
      { word := wordA, id := "i0" } (by decide) (by decide),
   (study_finalize_only_on_known sampleStudyState
        StudyMode.Response.known "u1" "u2" "u3" "d").2
      { reviewedCount := 1, errors := [], learnedIds := ["a"] } (by decide)⟩

/-- C2: for every completed study session driven from `initStudy`, a word id
is in the summary's `learnedIds` exactly when the last response recorded for
that id in the session trace was `known` — a later `known` re-adds an id
removed by an earlier `vague`/`unknown`, and a later failure removes an id
added by an earlier `known`. -/
theorem study_last_response_wins (words : List Word) (tc : Nat)
    (rs : List StudyMode.Response) (ever : List String) (ctr : Nat) (date : String)
    (res : StudyMode.StudyResult) (tr : List (String × StudyMode.Response))
    (ev : List String)
    (h : StudyMode.runStudy rs (StudyMode.initStudy words tc) ever ctr date
      = Option.some (res, (tr, ev)))
    (wid : String) :
    wid ∈ res.learnedIds ↔ StudyMode.lastResp tr wid = Option.some StudyMode.Response.known := by
  have hx := StudyMode.runStudy_learned rs (StudyMode.initStudy words tc) ever ctr date
    res tr ev h wid
  simpa [StudyMode.initStudy] using hx

/-- Witness for C2 at a concrete input: in the one-word session answered
`known`, the word's id is in `learnedIds` and its last response is `known`. -/
theorem study_last_response_wins_witness :
    "a" ∈ ({ reviewedCount := 1, errors := [], learnedIds := ["a"] }
        : StudyMode.StudyResult).learnedIds ↔
      StudyMode.lastResp [("a", StudyMode.Response.known)] "a"
        = Option.some StudyMode.Response.known :=
  study_last_response_wins [wordA] 1 [StudyMode.Response.known] ["a"] 0 "d"
    { reviewedCount := 1, errors := [], learnedIds := ["a"] }
    [("a", StudyMode.Response.known)] ["a"] (by decide) "a"

/-- C3 (counterexample): with the candidate list `[cat, cat]` — the same
word id twice — a full dictation session emits `totalCount = 2`, while only
one distinct word id ever occupied a queue entry. -/
theorem dictation_totalCount_counts_entries :
    dictDupRun.2.map (fun r => r.totalCount) = Option.some 2 ∧
      ((DictationMode.initDict [wordCat, wordCat] 2).queue.map (fun w => w.id)).dedup.length
        = 1 := by
  refine ⟨by decide, by decide⟩

/-- C3 (amended): for study sessions the summary's `reviewedCount` equals
the number of distinct word ids that ever occupied a queue entry; for
dictation the summary's `totalCount` equals the number of queue entries (the
truncated queue's length), which counts a repeated word id once per entry
rather than once per distinct id. -/
theorem session_count_semantics :
    (∀ (rs : List StudyMode.Response) (s : StudyMode.StudyState) (ctr : Nat) (date : String)
        (res : StudyMode.StudyResult) (tr : List (String × StudyMode.Response))
        (ev : List String),
      StudyMode.runStudy rs s (s.queue.map (fun i => i.word.id)) ctr date
          = Option.some (res, (tr, ev)) →
      res.reviewedCount = ev.dedup.length) ∧
      (∀ (s : DictationMode.DictState) (res : DictationMode.DictResult),
        (DictationMode.nextWord s).2 = Option.some res → res.totalCount = s.queue.length) := by
  constructor
  · exact fun rs s ctr date res tr ev h => StudyMode.runStudy_reviewed rs s ctr date res tr ev h
  · intro s res h
    unfold DictationMode.nextWord at h
    split at h
    · simp only [Option.some.injEq] at h
      rw [← h]
    · simp at h

/-- Witness for amended C3 at concrete inputs: the one-word study session
answered `known` reports one distinct id, and a one-entry dictation advance
reports the queue length. -/
theorem session_count_semantics_witness :
    ({ reviewedCount := 1, errors := [], learnedIds := ["a"] }
        : StudyMode.StudyResult).reviewedCount = (["a"] : List String).dedup.length ∧
      ({ totalCount := 1, errors := [], learnedIds := [] }
        : DictationMode.DictResult).totalCount
        = (DictationMode.initDict [wordCat] 1).queue.length :=
  ⟨session_count_semantics.1 [StudyMode.Response.known] (StudyMode.initStudy [wordA] 1) 0 "d"
      { reviewedCount := 1, errors := [], learnedIds := ["a"] }
      [("a", StudyMode.Response.known)] ["a"] (by decide),
   session_count_semantics.2 (DictationMode.initDict [wordCat] 1)
      { totalCount := 1, errors := [], learnedIds := [] } (by decide)⟩

/-- C4 (counterexample): with the candidate list `[cat, cat]`, answering both
dictation entries incorrectly yields a summary whose error list holds two
records with the same `wordId`. -/
theorem dictation_duplicate_error_records :
    dictDupRun.2.map (fun r => r.errors.map (fun e => e.wordId)) = Option.some ["c", "c"] ∧
      ¬(["c", "c"] : List String).Nodup := by
  refine ⟨by decide, by decide⟩

/-- C4 (amended): the study engine's summary never contains two error
records with the same `wordId` (its `recordError` dedupes); the dictation
engine performs no such dedup — it appends one record per incorrect
submission, so duplicate-wordId records occur exactly when the same word id
occupies more than one queue entry and fails more than once. -/
theorem study_errors_dedup (words : List Word) (tc : Nat) (rs : List StudyMode.Response)
    (ever : List String) (ctr : Nat) (date : String) (res : StudyMode.StudyResult)
    (tr : List (String × StudyMode.Response)) (ev : List String)
    (h : StudyMode.runStudy rs (StudyMode.initStudy words tc) ever ctr date
      = Option.some (res, (tr, ev))) :
    (res.errors.map (fun e => e.wordId)).Nodup :=
  StudyMode.runStudy_errors_nodup rs (StudyMode.initStudy words tc) ever ctr date res tr ev h
    (by simp [StudyMode.initStudy])

/-- Witness for amended C4 at a concrete input: the one-word session answered
`vague` then `known` ends with a single error record for the word. -/
theorem study_errors_dedup_witness :
    (([{ wordId := "a", wordText := "alpha", wordDefinition := "first", wordPhonetic := "AL",
         date := "d", type := ErrorKind.learning }]
      : List ErrorRecord).map (fun e => e.wordId)).Nodup :=
  study_errors_dedup [wordA] 1 [StudyMode.Response.vague, StudyMode.Response.known] ["a"] 0 "d"
    { reviewedCount := 1,
      errors := [{ wordId := "a", wordText := "alpha", wordDefinition := "first",
                   wordPhonetic := "AL", date := "d", type := ErrorKind.learning }],
      learnedIds := ["a"] }
    [("a", StudyMode.Response.vague), ("a", StudyMode.Response.known)] ["a", "a"] (by decide)

/-- C5: the summary handed to the caller at finalization reflects the final
response's own mutations: the study summary equals the post-mutation learned
set and error accumulator — in particular a word answered `known` on the
finalizing call appears in the emitted `learnedIds` — and the dictation
summary emitted by an advance after a submit equals the post-submit state's
errors and learned ids; the summary is never one response stale. -/
theorem summary_from_post_mutation_state :
    (∀ (s : StudyMode.StudyState) (ty : StudyMode.Response) (u1 u2 u3 date : String)
        (item : StudyMode.QueueItem) (res : StudyMode.StudyResult),
      s.queue[s.currentIndex]? = Option.some item →
      (StudyMode.handleResponse s ty u1 u2 u3 date).2 = Option.some res →
      res.learnedIds = (StudyMode.handleResponse s ty u1 u2 u3 date).1.learnedIds ∧
        res.errors = (StudyMode.handleResponse s ty u1 u2 u3 date).1.sessionErrors ∧
        (ty = StudyMode.Response.known → item.word.id ∈ res.learnedIds)) ∧
      (∀ (s : DictationMode.DictState) (date : String) (res : DictationMode.DictResult),
        (DictationMode.nextWord (DictationMode.handleSubmit s date)).2 = Option.some res →
        res.errors = (DictationMode.handleSubmit s date).sessionErrors ∧
          res.learnedIds = (DictationMode.handleSubmit s date).learnedIds) := by
  constructor
  · intro s ty u1 u2 u3 date item res h hres
    obtain ⟨hty, -, hresEq⟩ :=
      StudyMode.handleResponse_summary s ty u1 u2 u3 date item res h hres
    subst hty
    have hl := StudyMode.handleResponse_learnedIds s StudyMode.Response.known u1 u2 u3 date item h
    have he := StudyMode.handleResponse_sessionErrors s StudyMode.Response.known u1 u2 u3
      date item h
    rw [hresEq, hl, he]
    exact ⟨rfl, rfl, fun _ => (StudyMode.mem_setAdd _ _ _).mpr (Or.inr rfl)⟩
  · intro s date res hres
    unfold DictationMode.nextWord at hres
    split at hres
    · simp only [Option.some.injEq] at hres
      rw [← hres]
      exact ⟨rfl, rfl⟩
    · simp at hres

/-- Witness for C5 at concrete inputs: finalizing a one-word study session
with `known` emits the word in `learnedIds`, and the dictation advance after
a correct final submit emits the freshly added learned id. -/
theorem summary_from_post_mutation_state_witness :
    (({ reviewedCount := 1, errors := [], learnedIds := ["a"] }
          : StudyMode.StudyResult).learnedIds
        = (StudyMode.handleResponse sampleStudyState
            StudyMode.Response.known "u1" "u2" "u3" "d").1.learnedIds ∧
      ({ reviewedCount := 1, errors := [], learnedIds := ["a"] }
          : StudyMode.StudyResult).errors
        = (StudyMode.handleResponse sampleStudyState
            StudyMode.Response.known "u1" "u2" "u3" "d").1.sessionErrors ∧
      (StudyMode.Response.known = StudyMode.Response.known →
        "a" ∈ ({ reviewedCount := 1, errors := [], learnedIds := ["a"] }
          : StudyMode.StudyResult).learnedIds)) ∧
      (({ totalCount := 1, errors := [], learnedIds := ["ap"] }
            : DictationMode.DictResult).errors
          = (DictationMode.handleSubmit
              { DictationMode.initDict [wordApple] 1 with input := "Apple " } "d").sessionErrors ∧
        ({ totalCount := 1, errors := [], learnedIds := ["ap"] }
            : DictationMode.DictResult).learnedIds
          = (DictationMode.handleSubmit
              { DictationMode.initDict [wordApple] 1 with input := "Apple " } "d").learnedIds) :=
  ⟨summary_from_post_mutation_state.1 sampleStudyState StudyMode.Response.known "u1" "u2" "u3"
      "d" { word := wordA, id := "i0" }
      { reviewedCount := 1, errors := [], learnedIds := ["a"] } (by decide) (by decide),
   summary_from_post_mutation_state.2
      { DictationMode.initDict [wordApple] 1 with input := "Apple " } "d"
      { totalCount := 1, errors := [], learnedIds := ["ap"] } (by decide)⟩

/-- C6: a dictation submission on a pending entry is graded correct exactly
when the typed text, whitespace-trimmed and lowercased, equals the current
word's lowercased text — no fuzzy tolerance; on match the word's id is
appended to the learned list, on mismatch a `dictation` error record for the
word is appended. -/
theorem dictation_grading_exact (s : DictationMode.DictState) (date : String) (w : Word)
    (hq : s.queue[s.currentIndex]? = Option.some w)
    (hf : s.feedback = DictationMode.Feedback.none) :
    ((DictationMode.handleSubmit s date).feedback = DictationMode.Feedback.correct
        ↔ DictationMode.jsToLower (DictationMode.jsTrim s.input.data)
            = DictationMode.jsToLower w.text.data) ∧
      (DictationMode.jsToLower (DictationMode.jsTrim s.input.data)
          = DictationMode.jsToLower w.text.data →
        (DictationMode.handleSubmit s date).learnedIds = s.learnedIds ++ [w.id]) ∧
      (DictationMode.jsToLower (DictationMode.jsTrim s.input.data)
          ≠ DictationMode.jsToLower w.text.data →
        (DictationMode.handleSubmit s date).feedback = DictationMode.Feedback.incorrect ∧
          (DictationMode.handleSubmit s date).sessionErrors = s.sessionErrors ++
            [{ wordId := w.id, wordText := w.text, wordDefinition := w.definition,
               wordPhonetic := w.phonetic, date := date, type := ErrorKind.dictation }]) := by
  cases hg : DictationMode.gradeCorrect s.input w.text with
  | true =>
    have heq : DictationMode.jsToLower (DictationMode.jsTrim s.input.data)
        = DictationMode.jsToLower w.text.data := by
      simpa [DictationMode.gradeCorrect] using hg
    have hs : DictationMode.handleSubmit s date
        = { s with feedback := DictationMode.Feedback.correct,
                   learnedIds := s.learnedIds ++ [w.id] } := by
      simp [DictationMode.handleSubmit, hq, hf, hg]
    refine ⟨?_, ?_, ?_⟩
    · rw [hs]
      simp [heq]
    · intro _
      rw [hs]
    · intro hne
      exact absurd heq hne
  | false =>
    have hne : ¬(DictationMode.jsToLower (DictationMode.jsTrim s.input.data)
        = DictationMode.jsToLower w.text.data) := by
      simpa [DictationMode.gradeCorrect] using hg
    have hs : DictationMode.handleSubmit s date
        = { s with feedback := DictationMode.Feedback.incorrect,
                   sessionErrors := s.sessionErrors ++
                     [{ wordId := w.id, wordText := w.text, wordDefinition := w.definition,
                        wordPhonetic := w.phonetic, date := date,
                        type := ErrorKind.dictation }] } := by
      simp [DictationMode.handleSubmit, hq, hf, hg]
    refine ⟨?_, ?_, ?_⟩
    · rw [hs]
      simp [hne]
    · intro heq
      exact absurd heq hne
    · intro _
      rw [hs]
      exact ⟨rfl, rfl⟩

/-- Witness for C6 at a concrete input: typing "Apple " for the target
"apple" is graded correct and the word id is appended to the learned list. -/
theorem dictation_grading_exact_witness :
    ((DictationMode.handleSubmit
          { DictationMode.initDict [wordApple] 1 with input := "Apple " } "d").feedback
        = DictationMode.Feedback.correct
      ↔ DictationMode.jsToLower (DictationMode.jsTrim "Apple ".data)
          = DictationMode.jsToLower "apple".data) ∧
      (DictationMode.jsToLower (DictationMode.jsTrim "Apple ".data)
          = DictationMode.jsToLower "apple".data →
        (DictationMode.handleSubmit
            { DictationMode.initDict [wordApple] 1 with input := "Apple " } "d").learnedIds
          = ([] : List String) ++ ["ap"]) ∧
      (DictationMode.jsToLower (DictationMode.jsTrim "Apple ".data)
          ≠ DictationMode.jsToLower "apple".data →
        (DictationMode.handleSubmit
            { DictationMode.initDict [wordApple] 1 with input := "Apple " } "d").feedback
          = DictationMode.Feedback.incorrect ∧
          (DictationMode.handleSubmit
              { DictationMode.initDict [wordApple] 1 with input := "Apple " } "d").sessionErrors
            = ([] : List ErrorRecord) ++
              [{ wordId := "ap", wordText := "apple", wordDefinition := "fruit",
                 wordPhonetic := "APL", date := "d", type := ErrorKind.dictation }]) :=
  dictation_grading_exact { DictationMode.initDict [wordApple] 1 with input := "Apple " } "d"
    wordApple (by decide) (by decide)

/-- C7 (counterexample): the claim says an advance while the current entry is
still pending is rejected by the engine; instead, on pending entries the
advance handler moves the cursor — and even finalizes — exactly as if the
entry had been graded. -/
theorem dictation_advance_while_pending :
    (DictationMode.initDict [wordCat, wordCat] 2).feedback = DictationMode.Feedback.none ∧
      (DictationMode.nextWord (DictationMode.initDict [wordCat, wordCat] 2)).1.currentIndex
        = 1 ∧
      (DictationMode.initDict [wordCat] 1).feedback = DictationMode.Feedback.none ∧
      (DictationMode.nextWord (DictationMode.initDict [wordCat] 1)).2
        = Option.some { totalCount := 1, errors := [], learnedIds := [] } := by
  refine ⟨by decide, by decide, by decide, by decide⟩

/-- C7 (amended): a dictation entry accepts one submit — a second submit
before advancing is a no-op that leaves the state unchanged — but the
advance handler is not gated on grading state: whatever `feedback` holds, it
finalizes when the cursor is on the last entry and otherwise moves the
cursor by one (the UI, not the engine, restricts advance to graded
entries). -/
theorem dictation_submit_once_advance_ungated :
    (∀ (s : DictationMode.DictState) (date : String),
        s.feedback ≠ DictationMode.Feedback.none → DictationMode.handleSubmit s date = s) ∧
      (∀ s : DictationMode.DictState,
        (s.queue.length ≤ s.currentIndex + 1 →
          (DictationMode.nextWord s).2 = Option.some
            { totalCount := s.queue.length, errors := s.sessionErrors,
              learnedIds := s.learnedIds }) ∧
          (s.currentIndex + 1 < s.queue.length →
            (DictationMode.nextWord s).1.currentIndex = s.currentIndex + 1 ∧
              (DictationMode.nextWord s).2 = Option.none)) := by
  constructor
  · intro s date hfb
    unfold DictationMode.handleSubmit
    cases hq : s.queue[s.currentIndex]? with
    | none => rfl
    | some w => simp [hfb]
  · intro s
    constructor
    · intro hle
      unfold DictationMode.nextWord
      rw [if_pos hle]
    · intro hlt
      unfold DictationMode.nextWord
      rw [if_neg (by omega)]
      exact ⟨rfl, rfl⟩

/-- Witness for amended C7 at concrete inputs: a second submit on a graded
entry changes nothing, and the advance on the last entry finalizes. -/
theorem dictation_submit_once_advance_ungated_witness :
    DictationMode.handleSubmit
        { DictationMode.initDict [wordCat] 1 with feedback := DictationMode.Feedback.correct }
        "d"
      = { DictationMode.initDict [wordCat] 1 with
          feedback := DictationMode.Feedback.correct } ∧
      (DictationMode.nextWord (DictationMode.initDict [wordCat] 1)).2
        = Option.some { totalCount := (DictationMode.initDict [wordCat] 1).queue.length,
                        errors := (DictationMode.initDict [wordCat] 1).sessionErrors,
                        learnedIds := (DictationMode.initDict [wordCat] 1).learnedIds } ∧
      (DictationMode.nextWord (DictationMode.initDict [wordCat, wordCat] 2)).1.currentIndex
        = (DictationMode.initDict [wordCat, wordCat] 2).currentIndex + 1 :=
  ⟨dictation_submit_once_advance_ungated.1
      { DictationMode.initDict [wordCat] 1 with feedback := DictationMode.Feedback.correct }
      "d" (by decide),
   (dictation_submit_once_advance_ungated.2 (DictationMode.initDict [wordCat] 1)).1
      (by decide),
   ((dictation_submit_once_advance_ungated.2
      (DictationMode.initDict [wordCat, wordCat] 2)).2 (by decide)).1⟩
